import Mathlib

/-!
Shallow embedding of the rhythm-game engine in `src/main.ts`.

Positions and times (floats in the source) are modelled as rationals;
score and life (integers in the source) as `ℤ`.  The per-frame inputs the
engine consumes from its collaborators — elapsed-time delta, elapsed time,
the audio-energy sample (`analyser.getAverageFrequency()`), the random
lane, and whether the sound is still playing — are passed as explicit
arguments and state fields.
-/

namespace Pasta

/-- `LANE_KEYS` from the source. -/
def LANE_KEYS : List String := ["KeyD", "KeyF", "KeyJ", "KeyK"]

/-- `NUM_LANES` from the source. -/
abbrev NUM_LANES : Nat := 4

/-- A live note: its lane and the y-coordinate of its mesh
(`note.mesh.position.y`).  The rendering data of the source's `Note`
class (geometry, material) is out of the model. -/
structure Note where
  lane : Nat
  y : ℚ
  deriving DecidableEq, Repr

/-- `Note.update` from the source: `this.mesh.position.y -= speed * delta`. -/
def Note.update (n : Note) (delta speed : ℚ) : Note :=
  { n with y := n.y - speed * delta }

/-- The mutable fields of the source's `Game` class that the gameplay
logic reads and writes.  `soundPlaying` models `this.sound.isPlaying`;
`highScores` models the list persisted via `localStorage`. -/
structure GameState where
  score : ℤ
  life : ℤ
  notes : List Note
  lastBeatTime : ℚ
  isGameOver : Bool
  soundPlaying : Bool
  highScores : List ℤ
  deriving DecidableEq, Repr

/-- Constant `hitZoneY = -4` from the source. -/
def hitZoneY : ℚ := -4

/-- Constant `hitThreshold = 0.5` from the source. -/
def hitThreshold : ℚ := mkRat 1 2

/-- Constant `noteCooldown = 0.3` from the source. -/
def noteCooldown : ℚ := mkRat 3 10

/-- Constant `noteSpeed = 5` from the source. -/
def noteSpeed : ℚ := 5

/-- Constant `beatThreshold = 40` from the source. -/
def beatThreshold : ℚ := 40

/-- Spawn height of a new note: `this.camera.top + 4` with
`camera.top = viewHeight / 2 = 5`. -/
def spawnY : ℚ := 9

/-- Descending comparison used by `highScores.sort((a, b) => b - a)`. -/
def descOrder (a b : ℤ) : Prop := b ≤ a

instance : DecidableRel descOrder := fun a b => inferInstanceAs (Decidable (b ≤ a))

/-- The high-score update performed in `handleGameOver`:
`push(score)`, `sort((a, b) => b - a)`, `slice(0, 5)`.  The JavaScript
sort is modelled by `List.insertionSort` with the descending order. -/
def recordScore (scores : List ℤ) (s : ℤ) : List ℤ :=
  ((scores ++ [s]).insertionSort descOrder).take 5

/-- `handleGameOver` from the source: sets the game-over flag, stops the
sound, and persists the updated high-score list.  (The DOM rendering of
the game-over screen is out of the model.) -/
def handleGameOver (g : GameState) : GameState :=
  { g with isGameOver := true, soundPlaying := false,
           highScores := recordScore g.highScores g.score }

/-- `updateUI` from the source, gameplay part only: when
`life <= 0 && !isGameOver`, calls `handleGameOver`. -/
def updateUI (g : GameState) : GameState :=
  if g.life ≤ 0 ∧ g.isGameOver = false then handleGameOver g else g

/-- `LANE_KEYS.indexOf(event.code)`; the source's `-1` sentinel becomes
`none`. -/
def laneIndexOf (code : String) : Option Nat :=
  let i := LANE_KEYS.indexOf code
  if i < LANE_KEYS.length then some i else none

/-- A keyboard event as `onKeyPress` consumes it: its `code` and its
`repeat` flag. -/
structure KeyEvent where
  code : String
  isRepeat : Bool

/-- The hit test of `onKeyPress`:
`note.lane === laneIndex && note.mesh.position.y >= hitMin && note.mesh.position.y <= hitMax`
with `hitMin = hitZoneY - hitThreshold`, `hitMax = hitZoneY + hitThreshold`. -/
def isHittable (laneIndex : Nat) (n : Note) : Bool :=
  n.lane == laneIndex
    && decide (hitZoneY - hitThreshold ≤ n.y)
    && decide (n.y ≤ hitZoneY + hitThreshold)

/-- The scan `for (let i = this.notes.length - 1; i >= 0; i--) ... break`:
the index of the LAST element of the list satisfying `p`, i.e. the first
match when scanning from the end. -/
def findLastIdx (p : Note → Bool) : List Note → Option Nat
  | [] => none
  | n :: ns =>
    match findLastIdx p ns with
    | some i => some (i + 1)
    | none => if p n then some 0 else none

/-- `onKeyPress` from the source.  Returns the new state together with
the judged result: `some i` when the note at index `i` was hit (the
source then emits particles for it), `none` when the event was ignored
or no note matched. -/
def onKeyPress (ev : KeyEvent) (g : GameState) : GameState × Option Nat :=
  if g.isGameOver = true ∨ ev.isRepeat = true ∨ g.soundPlaying = false then (g, none)
  else
    match laneIndexOf ev.code with
    | none => (g, none)
    | some laneIndex =>
      match findLastIdx (isHittable laneIndex) g.notes with
      | none => (g, none)
      | some i =>
        (updateUI { g with notes := g.notes.eraseIdx i, score := g.score + 10 }, some i)

/-- `isReadyForNote = (time - this.lastBeatTime) > this.noteCooldown`. -/
def isReadyForNote (time lastBeatTime cooldown : ℚ) : Bool :=
  decide (time - lastBeatTime > cooldown)

/-- The spawn decision of `animate`: during the first 5 seconds a note is
forced on cooldown expiry alone; afterwards the frequency gate
`freqData > beatThreshold` must also pass. -/
def shouldCreateNote (time lastBeatTime cooldown freq thresh : ℚ) : Bool :=
  if time < 5 then isReadyForNote time lastBeatTime cooldown
  else decide (freq > thresh) && isReadyForNote time lastBeatTime cooldown

/-- The spawn block of `animate`: on fire, `lastBeatTime := time` and a
new note is pushed at height `camera.top + 4` in the chosen lane. -/
def spawnStep (time freq : ℚ) (lane : Fin NUM_LANES) (g : GameState) : GameState :=
  if shouldCreateNote time g.lastBeatTime noteCooldown freq beatThreshold then
    { g with lastBeatTime := time,
             notes := g.notes ++ [{ lane := lane.val, y := spawnY }] }
  else g

/-- Exit test of the note loop: `note.mesh.position.y < this.hitZoneY - this.hitThreshold`. -/
def isExited (n : Note) : Bool :=
  decide (n.y < hitZoneY - hitThreshold)

/-- One iteration of the note loop in `animate`: update the note's
position; if it fell below the hit zone, drop it, apply `life -= 2` and
run `updateUI` (which may trigger game over); otherwise keep it. -/
def stepNote (delta speed : ℚ) (n : Note) (acc : List Note × GameState) :
    List Note × GameState :=
  let n' := n.update delta speed
  if isExited n' then
    (acc.1, updateUI { acc.2 with life := acc.2.life - 2 })
  else (n' :: acc.1, acc.2)

/-- The note loop of `animate`.  The source iterates indices from
`notes.length - 1` down to `0`; `foldr` processes the rightmost element
first, matching that order, and rebuilds the surviving list in order. -/
def noteLoop (delta speed : ℚ) (notes : List Note) (g : GameState) :
    List Note × GameState :=
  notes.foldr (stepNote delta speed) ([], g)

/-- One call of `animate` from the source, taking the per-frame external
inputs as arguments: `delta = clock.getDelta()`, `time =
clock.getElapsedTime()`, `freq = analyser.getAverageFrequency()`, and
the random lane.  The particle loop and rendering are out of the model. -/
def animate (delta time freq : ℚ) (lane : Fin NUM_LANES) (g : GameState) : GameState :=
  if g.soundPlaying = false ∧ g.notes = [] ∧ g.isGameOver = false then
    handleGameOver g
  else if g.isGameOver = true then g
  else
    let g1 := spawnStep time freq lane g
    let r := noteLoop delta noteSpeed g1.notes g1
    { r.2 with notes := r.1 }

/-! ### Basic field lemmas -/

theorem handleGameOver_life (g : GameState) : (handleGameOver g).life = g.life := rfl

theorem handleGameOver_score (g : GameState) : (handleGameOver g).score = g.score := rfl

theorem handleGameOver_notes (g : GameState) : (handleGameOver g).notes = g.notes := rfl

theorem handleGameOver_isGameOver (g : GameState) : (handleGameOver g).isGameOver = true := rfl

theorem updateUI_life (g : GameState) : (updateUI g).life = g.life := by
  unfold updateUI; split <;> rfl

theorem updateUI_score (g : GameState) : (updateUI g).score = g.score := by
  unfold updateUI; split <;> rfl

theorem updateUI_notes (g : GameState) : (updateUI g).notes = g.notes := by
  unfold updateUI; split <;> rfl

theorem updateUI_isGameOver (g : GameState) :
    (updateUI g).isGameOver = true ↔ (g.isGameOver = true ∨ g.life ≤ 0) := by
  unfold updateUI
  split
  next h => simp [handleGameOver_isGameOver, h.1]
  next h =>
    constructor
    · exact fun hgo => Or.inl hgo
    · rintro (hgo | hlife)
      · exact hgo
      · by_contra hne
        exact h ⟨hlife, by simpa using hne⟩

/-! ### `findLastIdx` characterization -/

theorem findLastIdx_isSome (p : Note → Bool) :
    ∀ l : List Note, (findLastIdx p l).isSome = true ↔ ∃ n ∈ l, p n = true
  | [] => by simp [findLastIdx]
  | n :: ns => by
    have ih := findLastIdx_isSome p ns
    simp only [findLastIdx]
    cases h : findLastIdx p ns with
    | some i =>
      simp only [Option.isSome_some, true_iff]
      have : ∃ m ∈ ns, p m = true := ih.mp (by rw [h]; rfl)
      obtain ⟨m, hm, hpm⟩ := this
      exact ⟨m, List.mem_cons_of_mem _ hm, hpm⟩
    | none =>
      have hall : ¬∃ m ∈ ns, p m = true := fun hex => by
        have := ih.mpr hex
        rw [h] at this
        exact Bool.false_ne_true this
      constructor
      · intro hs
        by_cases hp : p n = true
        · exact ⟨n, List.mem_cons_self _ _, hp⟩
        · simp [hp] at hs
      · rintro ⟨m, hm, hpm⟩
        rcases List.mem_cons.mp hm with rfl | hm'
        · simp [hpm]
        · exact absurd ⟨m, hm', hpm⟩ hall

theorem findLastIdx_none (p : Note → Bool) (l : List Note) :
    findLastIdx p l = none ↔ ∀ n ∈ l, p n = false := by
  rw [← Option.not_isSome_iff_eq_none]
  rw [Bool.not_eq_true, ← Bool.not_eq_true ((findLastIdx p l).isSome)]
  rw [findLastIdx_isSome]
  push_neg
  constructor
  · intro h n hn
    simpa using h n hn
  · intro h n hn
    simp [h n hn]

theorem findLastIdx_some_spec (p : Note → Bool) :
    ∀ (l : List Note) (i : Nat), findLastIdx p l = some i →
      ∃ h : i < l.length,
        p (l.get ⟨i, h⟩) = true ∧
        ∀ j, i < j → ∀ hj : j < l.length, p (l.get ⟨j, hj⟩) = false
  | [], i, h => by simp [findLastIdx] at h
  | n :: ns, i, h => by
    simp only [findLastIdx] at h
    cases htail : findLastIdx p ns with
    | some k =>
      rw [htail] at h
      obtain rfl : k + 1 = i := by simpa using h
      obtain ⟨hk, hpk, hlast⟩ := findLastIdx_some_spec p ns k htail
      refine ⟨by simpa using Nat.succ_lt_succ hk, by simpa using hpk, ?_⟩
      intro j hj hjlen
      match j, hj with
      | j' + 1, hj =>
        exact hlast j' (Nat.lt_of_succ_lt_succ hj) (Nat.lt_of_succ_lt_succ hjlen)
    | none =>
      rw [htail] at h
      by_cases hp : p n = true
      · rw [if_pos hp] at h
        obtain rfl : 0 = i := by simpa using h
        refine ⟨Nat.zero_lt_succ _, by simpa using hp, ?_⟩
        intro j hj hjlen
        have hall := (findLastIdx_none p ns).mp htail
        match j, hj with
        | j' + 1, hj =>
          exact hall _ (ns.get_mem _ _)
      · rw [if_neg hp] at h
        exact absurd h (by simp)

/-! ### Note-loop invariants -/

/-- Number of notes that exit the playfield during one run of the note
loop: those whose updated position lies strictly below the hit zone. -/
def countExits (delta speed : ℚ) (notes : List Note) : Nat :=
  (notes.map (fun n => n.update delta speed)).countP isExited

theorem noteLoop_nil (delta speed : ℚ) (g : GameState) :
    noteLoop delta speed [] g = ([], g) := rfl

theorem noteLoop_cons (delta speed : ℚ) (n : Note) (ns : List Note) (g : GameState) :
    noteLoop delta speed (n :: ns) g = stepNote delta speed n (noteLoop delta speed ns g) := rfl

theorem noteLoop_fst (delta speed : ℚ) (notes : List Note) (g : GameState) :
    (noteLoop delta speed notes g).1 =
      (notes.map (fun n => n.update delta speed)).filter (fun n => !isExited n) := by
  induction notes with
  | nil => rfl
  | cons n ns ih =>
    rw [noteLoop_cons]
    by_cases h : isExited (n.update delta speed) = true <;>
      simp [stepNote, h, ih]

theorem noteLoop_life (delta speed : ℚ) (notes : List Note) (g : GameState) :
    (noteLoop delta speed notes g).2.life =
      g.life - 2 * (countExits delta speed notes : ℤ) := by
  induction notes with
  | nil => simp [noteLoop_nil, countExits]
  | cons n ns ih =>
    rw [noteLoop_cons]
    unfold countExits at *
    by_cases h : isExited (n.update delta speed) = true <;>
      simp [stepNote, h, updateUI_life, ih, List.countP_cons]
    all_goals omega

theorem noteLoop_score (delta speed : ℚ) (notes : List Note) (g : GameState) :
    (noteLoop delta speed notes g).2.score = g.score := by
  induction notes with
  | nil => rfl
  | cons n ns ih =>
    rw [noteLoop_cons]
    by_cases h : isExited (n.update delta speed) = true <;>
      simp [stepNote, h, updateUI_score, ih]

theorem noteLoop_isGameOver (delta speed : ℚ) (notes : List Note) (g : GameState) :
    (noteLoop delta speed notes g).2.isGameOver = true ↔
      (g.isGameOver = true ∨
        (1 ≤ countExits delta speed notes ∧
          g.life - 2 * (countExits delta speed notes : ℤ) ≤ 0)) := by
  induction notes with
  | nil =>
    simp [noteLoop_nil, countExits]
  | cons n ns ih =>
    rw [noteLoop_cons]
    unfold countExits at *
    by_cases h : isExited (n.update delta speed) = true
    · have hlife := noteLoop_life delta speed ns g
      unfold countExits at hlife
      simp only [stepNote, h, if_pos, List.map_cons, List.countP_cons, h]
      rw [updateUI_isGameOver]
      simp only [ih, hlife]
      cases hgo : g.isGameOver <;> simp
      all_goals omega
    · simp only [stepNote, h, List.map_cons, List.countP_cons]
      simp [h, ih]

/-! ### Spawn-step lemmas -/

theorem spawnStep_life (time freq : ℚ) (lane : Fin NUM_LANES) (g : GameState) :
    (spawnStep time freq lane g).life = g.life := by
  unfold spawnStep; split <;> rfl

theorem spawnStep_score (time freq : ℚ) (lane : Fin NUM_LANES) (g : GameState) :
    (spawnStep time freq lane g).score = g.score := by
  unfold spawnStep; split <;> rfl

theorem spawnStep_isGameOver (time freq : ℚ) (lane : Fin NUM_LANES) (g : GameState) :
    (spawnStep time freq lane g).isGameOver = g.isGameOver := by
  unfold spawnStep; split <;> rfl

theorem spawnStep_lastBeatTime (time freq : ℚ) (lane : Fin NUM_LANES) (g : GameState) :
    (spawnStep time freq lane g).lastBeatTime =
      if shouldCreateNote time g.lastBeatTime noteCooldown freq beatThreshold = true
      then time else g.lastBeatTime := by
  unfold spawnStep; split <;> simp_all

/-! ### Unfolding `animate` on the playing path -/

theorem animate_playing (delta time freq : ℚ) (lane : Fin NUM_LANES) (g : GameState)
    (hGO : g.isGameOver = false) (hPath : ¬(g.soundPlaying = false ∧ g.notes = [])) :
    animate delta time freq lane g =
      { (noteLoop delta noteSpeed (spawnStep time freq lane g).notes
          (spawnStep time freq lane g)).2 with
        notes := (noteLoop delta noteSpeed (spawnStep time freq lane g).notes
          (spawnStep time freq lane g)).1 } := by
  unfold animate
  rw [if_neg (fun h => hPath ⟨h.1, h.2.1⟩), if_neg (by simp [hGO])]

/-! ### `onKeyPress` lemmas -/

theorem updateUI_of_life_pos (g : GameState) (h : 0 < g.life) : updateUI g = g := by
  unfold updateUI
  exact if_neg (fun hc => absurd hc.1 (not_le.mpr h))

theorem onKeyPress_eq_of_active (ev : KeyEvent) (g : GameState) (lane : Nat)
    (hGO : g.isGameOver = false) (hRep : ev.isRepeat = false)
    (hSnd : g.soundPlaying = true) (hLane : laneIndexOf ev.code = some lane) :
    onKeyPress ev g =
      (match findLastIdx (isHittable lane) g.notes with
       | none => (g, none)
       | some i =>
         (updateUI { g with notes := g.notes.eraseIdx i, score := g.score + 10 }, some i)) := by
  unfold onKeyPress
  rw [if_neg (by simp [hGO, hRep, hSnd]), hLane]

theorem onKeyPress_life (ev : KeyEvent) (g : GameState) :
    (onKeyPress ev g).1.life = g.life := by
  unfold onKeyPress
  split
  · rfl
  · cases hL : laneIndexOf ev.code with
    | none => rfl
    | some lane =>
      cases hF : findLastIdx (isHittable lane) g.notes with
      | none => simp [hF]
      | some i => simp [hF, updateUI_life]

theorem onKeyPress_isGameOver (ev : KeyEvent) (g : GameState)
    (hGO : g.isGameOver = false) (hLife : 0 < g.life) :
    (onKeyPress ev g).1.isGameOver = false := by
  unfold onKeyPress
  split
  · exact hGO
  · cases hL : laneIndexOf ev.code with
    | none => exact hGO
    | some lane =>
      cases hF : findLastIdx (isHittable lane) g.notes with
      | none => simp [hF, hGO]
      | some i =>
        simp only [hF]
        rw [updateUI_of_life_pos _ (by simpa using hLife)]
        exact hGO

/-! ### Claim C4: lane-press judgment -/

/-- C4: For every lane-press event while Playing (not game over, not a
key repeat, sound playing, key mapped to lane `lane`): if some note of
that lane has position within `[hitZoneY - hitThreshold, hitZoneY + hitThreshold]`,
the press yields a hit, the judged note (which is hittable) is removed,
and the score increases by exactly 10; otherwise the press yields no hit
and the state — in particular the score — is unchanged. -/
theorem C4_hit_judgment (ev : KeyEvent) (g : GameState) (lane : Nat)
    (hGO : g.isGameOver = false) (hRep : ev.isRepeat = false)
    (hSnd : g.soundPlaying = true) (hLane : laneIndexOf ev.code = some lane) :
    ((∃ n ∈ g.notes, isHittable lane n = true) →
      (onKeyPress ev g).2.isSome = true ∧
      (onKeyPress ev g).1.score = g.score + 10 ∧
      ∃ i, (onKeyPress ev g).2 = some i ∧
        (∃ h : i < g.notes.length, isHittable lane (g.notes.get ⟨i, h⟩) = true) ∧
        (onKeyPress ev g).1.notes = g.notes.eraseIdx i) ∧
    ((∀ n ∈ g.notes, isHittable lane n = false) →
      onKeyPress ev g = (g, none)) := by
  rw [onKeyPress_eq_of_active ev g lane hGO hRep hSnd hLane]
  constructor
  · rintro ⟨n, hn, hpn⟩
    have hs : (findLastIdx (isHittable lane) g.notes).isSome = true :=
      (findLastIdx_isSome _ _).mpr ⟨n, hn, hpn⟩
    obtain ⟨i, hF⟩ := Option.isSome_iff_exists.mp hs
    obtain ⟨hi, hpi, _⟩ := findLastIdx_some_spec _ _ _ hF
    simp only [hF]
    refine ⟨by simp, by simp [updateUI_score], i, by simp, ⟨hi, hpi⟩,
      by simp [updateUI_notes]⟩
  · intro hall
    rw [(findLastIdx_none _ _).mpr hall]

/-- Witness state for C4: a single lane-0 note exactly on the judgment
line. -/
def hitState : GameState :=
  { score := 0, life := 100, notes := [{ lane := 0, y := -4 }], lastBeatTime := 0,
    isGameOver := false, soundPlaying := true, highScores := [] }

/-- Witness for C4: pressing `KeyD` on `hitState` registers a hit and
adds 10 to the score. -/
theorem C4_hit_judgment_witness :
    (onKeyPress ⟨"KeyD", false⟩ hitState).2.isSome = true ∧
    (onKeyPress ⟨"KeyD", false⟩ hitState).1.score = hitState.score + 10 := by
  have h := C4_hit_judgment ⟨"KeyD", false⟩ hitState 0 rfl rfl rfl
    (by with_unfolding_all rfl)
  have hex : ∃ n ∈ hitState.notes, isHittable 0 n = true :=
    ⟨{ lane := 0, y := -4 }, by simp [hitState], by with_unfolding_all rfl⟩
  exact ⟨(h.1 hex).1, (h.1 hex).2.1⟩

/-! ### Claim C5: tie-break selects the most recently spawned note -/

/-- C5: When the scan finds a hit (index `i`), that index is the LAST
matching position in the note list — since `animate` appends newly
spawned notes at the end, list order is spawn order, so the hit resolves
against the most recently spawned note among those within tolerance;
every later-spawned (higher-index) note is not hittable, and exactly the
note at index `i` is removed. -/
theorem C5_newest_wins (ev : KeyEvent) (g : GameState) (lane i : Nat)
    (hGO : g.isGameOver = false) (hRep : ev.isRepeat = false)
    (hSnd : g.soundPlaying = true) (hLane : laneIndexOf ev.code = some lane)
    (hF : findLastIdx (isHittable lane) g.notes = some i) :
    (onKeyPress ev g).2 = some i ∧
    (onKeyPress ev g).1.notes = g.notes.eraseIdx i ∧
    (∃ h : i < g.notes.length, isHittable lane (g.notes.get ⟨i, h⟩) = true) ∧
    (∀ j, i < j → ∀ hj : j < g.notes.length, isHittable lane (g.notes.get ⟨j, hj⟩) = false) := by
  rw [onKeyPress_eq_of_active ev g lane hGO hRep hSnd hLane]
  simp only [hF]
  obtain ⟨hi, hpi, hlast⟩ := findLastIdx_some_spec _ _ _ hF
  exact ⟨by simp, by simp [updateUI_notes], ⟨hi, hpi⟩, hlast⟩

/-- Witness state for C5: two lane-2 notes simultaneously within
tolerance.  The note at index 0 was spawned earlier (it has travelled
further down, e.g. spawned at t=1.0); the note at index 1 was spawned
later (t=1.2) — `animate` appends spawns, so list order is spawn order. -/
def twoNoteState : GameState :=
  { score := 0, life := 100,
    notes := [{ lane := 2, y := mkRat (-43) 10 }, { lane := 2, y := mkRat (-37) 10 }],
    lastBeatTime := 0, isGameOver := false, soundPlaying := true, highScores := [] }

/-- Witness for C5: pressing `KeyJ` (lane 2) on `twoNoteState` hits the
note at index 1 — the most recently spawned one — leaving the older
note. -/
theorem C5_newest_wins_witness :
    (onKeyPress ⟨"KeyJ", false⟩ twoNoteState).2 = some 1 ∧
    (onKeyPress ⟨"KeyJ", false⟩ twoNoteState).1.notes = twoNoteState.notes.eraseIdx 1 := by
  have h := C5_newest_wins ⟨"KeyJ", false⟩ twoNoteState 2 1 rfl rfl rfl
    (by with_unfolding_all rfl) (by with_unfolding_all rfl)
  exact ⟨h.1, h.2.1⟩

/-! ### Claim C8: unmatched presses are free -/

/-- C8: A press never changes the life counter, and a guard-passing
press on a lane with no note within tolerance leaves the whole state
unchanged and yields no hit.  (Life decreases only in the `animate` note
loop, per exited note — see `noteLoop_life`.) -/
theorem C8_unmatched_press_free (ev : KeyEvent) (g : GameState) :
    (onKeyPress ev g).1.life = g.life ∧
    (∀ lane, laneIndexOf ev.code = some lane →
      (∀ n ∈ g.notes, isHittable lane n = false) →
      onKeyPress ev g = (g, none)) := by
  refine ⟨onKeyPress_life ev g, fun lane hLane hall => ?_⟩
  unfold onKeyPress
  by_cases hg : g.isGameOver = true ∨ ev.isRepeat = true ∨ g.soundPlaying = false
  · rw [if_pos hg]
  · have h0 : findLastIdx (isHittable lane) g.notes = none :=
      (findLastIdx_none _ _).mpr hall
    rw [if_neg hg, hLane]
    simp [h0]

/-- Witness state for C8: one lane-0 note far above the hit zone. -/
def farNoteState : GameState :=
  { score := 7, life := 55, notes := [{ lane := 0, y := 5 }], lastBeatTime := 0,
    isGameOver := false, soundPlaying := true, highScores := [] }

/-- Witness for C8: pressing `KeyD` on `farNoteState` (its only note is
far from the line) changes nothing. -/
theorem C8_unmatched_press_free_witness :
    (onKeyPress ⟨"KeyD", false⟩ farNoteState).1.life = farNoteState.life ∧
    onKeyPress ⟨"KeyD", false⟩ farNoteState = (farNoteState, none) := by
  have h := C8_unmatched_press_free ⟨"KeyD", false⟩ farNoteState
  refine ⟨h.1, h.2 0 (by with_unfolding_all rfl) ?_⟩
  intro n hn
  have : n = { lane := 0, y := 5 } := by simpa [farNoteState] using hn
  rw [this]
  with_unfolding_all rfl

/-! ### Claim C10: ignored key events -/

/-- C10: A key event that is a held-key repeat, or arrives when the game
is over or no track is playing, or whose key maps to no configured lane,
is ignored entirely: the state is unchanged and no hit result is
produced. -/
theorem C10_ignored_event (ev : KeyEvent) (g : GameState)
    (h : g.isGameOver = true ∨ ev.isRepeat = true ∨ g.soundPlaying = false ∨
      laneIndexOf ev.code = none) :
    onKeyPress ev g = (g, none) := by
  unfold onKeyPress
  by_cases hg : g.isGameOver = true ∨ ev.isRepeat = true ∨ g.soundPlaying = false
  · rw [if_pos hg]
  · rcases h with h | h | h | h
    · exact absurd (Or.inl h) hg
    · exact absurd (Or.inr (Or.inl h)) hg
    · exact absurd (Or.inr (Or.inr h)) hg
    · rw [if_neg hg, h]

/-- Witness state for C10: a playing state with a hittable note. -/
def ignoreState : GameState :=
  { score := 3, life := 90, notes := [{ lane := 0, y := -4 }], lastBeatTime := 0,
    isGameOver := false, soundPlaying := true, highScores := [] }

/-- Witness for C10: a held-key repeat of `KeyD` on `ignoreState` is
ignored even though a lane-0 note is on the line. -/
theorem C10_ignored_event_witness :
    onKeyPress ⟨"KeyD", true⟩ ignoreState = (ignoreState, none) :=
  C10_ignored_event ⟨"KeyD", true⟩ ignoreState (Or.inr (Or.inl rfl))

/-! ### Claim C2: spawn cooldown gate -/

/-- C2 counterexample: with cooldown 0.4 and `lastBeatTime = 0`, a call
at t = 0.0 does NOT fire — `0 - 0 > 0.4` is false — even with energy far
above the threshold.  This refutes the claim that the t = 0.0 call
fires. -/
theorem C2_counterexample :
    shouldCreateNote 0 0 (mkRat 2 5) 100 40 = false ∧
    isReadyForNote 0 0 (mkRat 2 5) = false :=
  ⟨by with_unfolding_all rfl, by with_unfolding_all rfl⟩

/-- C2 (amended): a spawn decision fires only if
`currentTime - lastBeatTime` is strictly greater than the cooldown, and
`lastBeatTime` is set to `currentTime` exactly on fire; with cooldown
0.4 and `lastBeatTime` initially 0, a call at t = 0.0 is SUPPRESSED
(0 is not strictly greater than 0.4), a call at t = 0.3 is suppressed,
and a call at t = 0.5 fires. -/
theorem C2_spawn_cooldown :
    (∀ t lb cd f th : ℚ, shouldCreateNote t lb cd f th = true → t - lb > cd) ∧
    (∀ (time freq : ℚ) (lane : Fin NUM_LANES) (g : GameState),
      (spawnStep time freq lane g).lastBeatTime =
        if shouldCreateNote time g.lastBeatTime noteCooldown freq beatThreshold = true
        then time else g.lastBeatTime) ∧
    shouldCreateNote 0 0 (mkRat 2 5) 100 40 = false ∧
    shouldCreateNote (mkRat 3 10) 0 (mkRat 2 5) 100 40 = false ∧
    shouldCreateNote (mkRat 1 2) 0 (mkRat 2 5) 100 40 = true := by
  refine ⟨?_, spawnStep_lastBeatTime, by with_unfolding_all rfl,
    by with_unfolding_all rfl, by with_unfolding_all rfl⟩
  intro t lb cd f th h
  unfold shouldCreateNote isReadyForNote at h
  by_cases ht : t < 5
  · rw [if_pos ht] at h
    exact of_decide_eq_true h
  · rw [if_neg ht] at h
    exact of_decide_eq_true (Bool.and_elim_right h)

/-- Witness for C2: the t = 0.5 call fires, and by the first conjunct
the strict cooldown inequality holds there. -/
theorem C2_spawn_cooldown_witness : (mkRat 1 2 : ℚ) - 0 > mkRat 2 5 :=
  C2_spawn_cooldown.1 (mkRat 1 2) 0 (mkRat 2 5) 100 40 (by with_unfolding_all rfl)

/-! ### Claim C7: warm-up window -/

/-- C7: During the warm-up window (`time < 5`), the spawn decision
fires on cooldown expiry alone, ignoring the energy gate; from t = 5 on,
it fires only when the cooldown has expired AND the energy sample
strictly exceeds the threshold. -/
theorem C7_warmup_override (t lb cd f th : ℚ) :
    (t < 5 → (shouldCreateNote t lb cd f th = true ↔ t - lb > cd)) ∧
    (5 ≤ t → (shouldCreateNote t lb cd f th = true ↔ (t - lb > cd ∧ f > th))) := by
  unfold shouldCreateNote isReadyForNote
  constructor
  · intro h
    rw [if_pos h]
    simp
  · intro h
    rw [if_neg (not_lt.mpr h)]
    simp [and_comm]

/-- Witness for C7: at t = 1 (inside the warm-up window) with energy 0,
the spawn decision is equivalent to the bare cooldown test. -/
theorem C7_warmup_override_witness :
    (1 : ℚ) < 5 ∧ (shouldCreateNote 1 0 (mkRat 3 10) 0 40 = true ↔ (1 : ℚ) - 0 > mkRat 3 10) :=
  ⟨by decide, (C7_warmup_override 1 0 (mkRat 3 10) 0 40).1 (by decide)⟩

/-! ### Claim C6: advancing the note field -/

/-- C6: For `delta ≥ 0` and `speed > 0`, one run of the note loop moves
every live note down by exactly `speed * delta` (so positions only
decrease), and the surviving notes are exactly the updated notes NOT
strictly below `hitZoneY - hitThreshold`: a note is removed as an exit
precisely when its resulting position falls strictly below the line
minus the tolerance. -/
theorem C6_advance (delta speed : ℚ) (h1 : 0 ≤ delta) (h2 : 0 < speed)
    (notes : List Note) (g : GameState) :
    (∀ n : Note, (n.update delta speed).y = n.y - speed * delta ∧
      (n.update delta speed).y ≤ n.y) ∧
    (∀ n : Note, isExited n = true ↔ n.y < hitZoneY - hitThreshold) ∧
    (noteLoop delta speed notes g).1 =
      (notes.map (fun n => n.update delta speed)).filter (fun n => !isExited n) := by
  refine ⟨fun n => ⟨rfl, ?_⟩, fun n => by simp [isExited],
    noteLoop_fst delta speed notes g⟩
  have hsd : 0 ≤ speed * delta := mul_nonneg h2.le h1
  simp only [Note.update]
  linarith

/-- Witness state for C6: one note high up and one already below the
hit zone. -/
def advanceState : GameState :=
  { score := 0, life := 100,
    notes := [{ lane := 1, y := 9 }, { lane := 3, y := -8 }], lastBeatTime := 0,
    isGameOver := false, soundPlaying := true, highScores := [] }

/-- Witness for C6 at `delta = 1`, `speed = 5`: the filter
characterization instantiated on `advanceState`. -/
theorem C6_advance_witness :
    (0 : ℚ) ≤ 1 ∧ (0 : ℚ) < 5 ∧
    (noteLoop 1 5 advanceState.notes advanceState).1 =
      (advanceState.notes.map (fun n => n.update 1 5)).filter (fun n => !isExited n) :=
  ⟨by decide, by decide,
    (C6_advance 1 5 (by decide) (by decide) advanceState.notes advanceState).2.2⟩

/-! ### Claim C1: life accounting -/

/-- Counterexample state for C1: a playing state with life 1 ∈ [0, 100]
and one note already below the hit zone. -/
def oddLifeState : GameState :=
  { score := 0, life := 1, notes := [{ lane := 0, y := -9 }], lastBeatTime := 0,
    isGameOver := false, soundPlaying := true, highScores := [] }

/-- C1 counterexample: starting from life 1 (inside [0, 100]), the tick
that misses the note drives life to −1: `life -= 2` is NOT clamped at 0,
so life does become negative, refuting the claim. -/
theorem C1_counterexample :
    (0 ≤ oddLifeState.life ∧ oddLifeState.life ≤ 100) ∧
    (animate 0 10 0 0 oddLifeState).life = -1 :=
  ⟨⟨by decide, by decide⟩, by with_unfolding_all rfl⟩

/-- C1 (amended): on every playing tick, life decreases by exactly the
fixed miss penalty 2 once per note that exits the playfield unhit, with
NO clamping at 0 — from an odd life value (or several exits in one tick)
life becomes negative, as `C1_counterexample` shows; the same tick then
triggers game over (`noteLoop_isGameOver`). -/
theorem C1_life_decrement (delta time freq : ℚ) (lane : Fin NUM_LANES) (g : GameState)
    (hGO : g.isGameOver = false) (hPath : ¬(g.soundPlaying = false ∧ g.notes = [])) :
    (animate delta time freq lane g).life =
      g.life - 2 * (countExits delta noteSpeed (spawnStep time freq lane g).notes : ℤ) := by
  rw [animate_playing delta time freq lane g hGO hPath]
  simp only [noteLoop_life]
  rw [spawnStep_life]

/-- Witness for C1: the amended decrement law instantiated on
`oddLifeState`. -/
theorem C1_life_decrement_witness :
    oddLifeState.isGameOver = false ∧
    (animate 0 10 0 0 oddLifeState).life =
      oddLifeState.life - 2 * (countExits 0 noteSpeed (spawnStep 10 0 0 oddLifeState).notes : ℤ) :=
  ⟨rfl, C1_life_decrement 0 10 0 0 oddLifeState rfl (by simp [oddLifeState])⟩

/-! ### Claim C3: the only transitions out of Playing -/

/-- C3: While playing (not game over, life positive), a tick ends in
game over exactly when either the track has finished with no live notes
at the start of the tick (even with positive life), or the tick's misses
drove life to 0 or below; and a key press never ends the session.  In
particular game over is entered in the very tick life reaches 0. -/
theorem C3_gameover_transition (delta time freq : ℚ) (lane : Fin NUM_LANES)
    (g : GameState) (hGO : g.isGameOver = false) (hLife : 0 < g.life) :
    ((animate delta time freq lane g).isGameOver = true ↔
      ((g.soundPlaying = false ∧ g.notes = []) ∨
        (animate delta time freq lane g).life ≤ 0)) ∧
    (∀ ev : KeyEvent, (onKeyPress ev g).1.isGameOver = false) := by
  refine ⟨?_, fun ev => onKeyPress_isGameOver ev g hGO hLife⟩
  by_cases hPath : g.soundPlaying = false ∧ g.notes = []
  · unfold animate
    rw [if_pos ⟨hPath.1, hPath.2, hGO⟩]
    simp [handleGameOver_isGameOver, hPath]
  · rw [animate_playing delta time freq lane g hGO hPath]
    have hlife1 : (spawnStep time freq lane g).life = g.life := spawnStep_life _ _ _ _
    have hgo1 : (spawnStep time freq lane g).isGameOver = false := by
      rw [spawnStep_isGameOver]; exact hGO
    simp only [noteLoop_isGameOver, noteLoop_life, hlife1, hgo1, hPath, false_or]
    constructor
    · rintro (h | ⟨-, hle⟩)
      · exact absurd h (by simp)
      · exact hle
    · intro hle
      exact Or.inr ⟨by omega, hle⟩

/-- Witness state for C3: life 2, one note below the hit zone. -/
def lowLifeState : GameState :=
  { score := 0, life := 2, notes := [{ lane := 0, y := -9 }], lastBeatTime := 0,
    isGameOver := false, soundPlaying := true, highScores := [] }

/-- Witness for C3: the tick on `lowLifeState` misses the note, life
reaches 0, and the very same tick transitions to game over. -/
theorem C3_gameover_transition_witness :
    (animate 0 10 0 0 lowLifeState).isGameOver = true :=
  ((C3_gameover_transition 0 10 0 0 lowLifeState rfl (by decide)).1).mpr
    (Or.inr (le_of_eq (by with_unfolding_all rfl)))

/-! ### Claim C9: high-score recording -/

instance : IsTotal ℤ descOrder := ⟨fun a b => le_total b a⟩

instance : IsTrans ℤ descOrder := ⟨fun _ _ _ h1 h2 => le_trans h2 h1⟩

/-- C9: After recording a score, the persisted list is the previous list
with the new score inserted, re-sorted in descending order and truncated
to at most 5 entries (it is descending-sorted, has length ≤ 5, and is a
sub-permutation of the old list plus the new score); a score strictly
greater than every existing entry lands at index 0. -/
theorem C9_record_score (scores : List ℤ) (s : ℤ) :
    (recordScore scores s).Sorted descOrder ∧
    (recordScore scores s).length ≤ 5 ∧
    List.Subperm (recordScore scores s) (scores ++ [s]) ∧
    ((∀ x ∈ scores, x < s) → (recordScore scores s).head? = some s) := by
  have hsorted : ((scores ++ [s]).insertionSort descOrder).Sorted descOrder :=
    List.sorted_insertionSort descOrder _
  have hperm : List.Perm ((scores ++ [s]).insertionSort descOrder) (scores ++ [s]) :=
    List.perm_insertionSort descOrder _
  refine ⟨hsorted.sublist (List.take_sublist _ _), List.length_take_le _ _,
    ((List.take_sublist _ _).subperm).trans hperm.subperm, ?_⟩
  intro hmax
  have hs_mem : s ∈ (scores ++ [s]).insertionSort descOrder := by
    rw [List.mem_insertionSort]
    exact List.mem_append_right _ (List.mem_singleton_self s)
  cases hL : (scores ++ [s]).insertionSort descOrder with
  | nil => rw [hL] at hs_mem; exact absurd hs_mem (List.not_mem_nil s)
  | cons a t =>
    have hhead : (recordScore scores s).head? = some a := by
      unfold recordScore
      rw [hL]
      rfl
    rw [hhead]
    have ha_mem : a ∈ scores ++ [s] := by
      rw [← List.mem_insertionSort (r := descOrder), hL]
      exact List.mem_cons_self a t
    have ha_le : a ≤ s := by
      rcases List.mem_append.mp ha_mem with h | h
      · exact (hmax a h).le
      · rw [List.mem_singleton.mp h]
    have hs_le : s ≤ a := by
      rw [hL] at hs_mem
      rcases List.mem_cons.mp hs_mem with rfl | h
      · rfl
      · rw [hL] at hsorted
        exact List.rel_of_sorted_cons hsorted s h
    rw [le_antisymm ha_le hs_le]

/-- Witness for C9: 50 strictly dominates [30, 20, 10] and lands at
index 0. -/
theorem C9_record_score_witness :
    (∀ x ∈ ([30, 20, 10] : List ℤ), x < 50) ∧
    (recordScore [30, 20, 10] 50).head? = some 50 :=
  ⟨by decide, (C9_record_score [30, 20, 10] 50).2.2.2 (by decide)⟩

end Pasta
